import Mathlib

/-!
Verification development for the POI Retrieval & Scoring Pipeline.

This file contains a shallow embedding, in Lean 4, of the pipeline's data
model and operations, translated from the Python sources under
`app/core/Agents/Poi/`, together with theorems settling the specification
claims about them.

Modelling conventions:
* Python `float` scores and coordinates are modelled as `ℚ` (the claims
  under study are structural: comparisons, ordering, round-trips).
* Python `None` / optional fields are `Option`; Python truthiness of a
  string-or-None value is `strTruthy` (empty string and `None` are falsy).
* `datetime.now()` timestamps are modelled by an explicit `now : ℕ`
  parameter.
* JSON (de)serialization performed by the `json` / `pydantic` libraries on
  round-trippable values (a list of strings, a pydantic model) is modelled
  structurally: the metadata slot carries the structured value, because
  `json.loads` is a left inverse of `json.dumps` on these values.
* Stateful components (SQLite tables, the Chroma collection) are modelled
  as insertion-ordered association lists, mirroring row insertion order.
-/

/-- Data source of a POI, from `PoiSource` in `models/PoiAgentDataclass/poi.py`. -/
inductive PoiSource where
  | web_search
  | embedding_db
  | user_feedback
deriving DecidableEq, Repr

/-- String value of a `PoiSource` member (the Python enum value). -/
def PoiSource.value : PoiSource → String
  | .web_search => "web_search"
  | .embedding_db => "embedding_db"
  | .user_feedback => "user_feedback"

/-- Inverse enum lookup `PoiSource(v)`; `none` models the `ValueError` raised on an unknown value. -/
def PoiSource.ofValue : String → Option PoiSource
  | "web_search" => some .web_search
  | "embedding_db" => some .embedding_db
  | "user_feedback" => some .user_feedback
  | _ => none

/-- POI category, from `PoiCategory` in `models/PoiAgentDataclass/poi.py`. -/
inductive PoiCategory where
  | restaurant
  | cafe
  | attraction
  | accommodation
  | shopping
  | entertainment
  | region
  | other
deriving DecidableEq, Repr

/-- String value of a `PoiCategory` member (the Python enum value). -/
def PoiCategory.value : PoiCategory → String
  | .restaurant => "restaurant"
  | .cafe => "cafe"
  | .attraction => "attraction"
  | .accommodation => "accommodation"
  | .shopping => "shopping"
  | .entertainment => "entertainment"
  | .region => "region"
  | .other => "other"

/-- Inverse enum lookup `PoiCategory(v)`; `none` models the `ValueError` raised on an unknown value. -/
def PoiCategory.ofValue : String → Option PoiCategory
  | "restaurant" => some .restaurant
  | "cafe" => some .cafe
  | "attraction" => some .attraction
  | "accommodation" => some .accommodation
  | "shopping" => some .shopping
  | "entertainment" => some .entertainment
  | "region" => some .region
  | "other" => some .other
  | _ => none

/-- Time slot of an opening-hours entry (`TimeSlot` in `poi.py`); times as minutes. -/
structure TimeSlot where
  open_time : ℕ
  close_time : ℕ
deriving DecidableEq, Repr

/-- One day of opening hours (`DailyOpeningHours` in `poi.py`); `day` is ISO 1..7. -/
structure DailyOpeningHours where
  day : ℕ
  slots : List TimeSlot
  is_closed : Bool
deriving DecidableEq, Repr

/-- Weekly opening hours (`OpeningHours` in `poi.py`). -/
structure OpeningHours where
  periods : List DailyOpeningHours
  raw_text : Option (List String)
deriving DecidableEq, Repr

/-- Canonical POI record, from `PoiData` in `models/PoiAgentDataclass/poi.py`.
`created_at` (a `datetime.now()` default in the source) is a `ℕ` timestamp. -/
structure PoiData where
  id : String
  name : String
  category : PoiCategory
  description : String
  city : Option String
  address : Option String
  source : PoiSource
  source_url : Option String
  raw_text : String
  created_at : ℕ
  google_place_id : Option String
  latitude : Option ℚ
  longitude : Option ℚ
  google_maps_uri : Option String
  types : List String
  primary_type : Option String
  google_rating : Option ℚ
  user_rating_count : Option ℤ
  price_level : Option String
  price_range : Option String
  website_uri : Option String
  phone_number : Option String
  opening_hours : Option OpeningHours
deriving DecidableEq, Repr

/-- Search candidate, from `PoiSearchResult` in `models/PoiAgentDataclass/poi.py`. -/
structure PoiSearchResult where
  poi_id : Option String := none
  title : String
  snippet : String
  url : Option String := none
  source : PoiSource
  relevance_score : ℚ := 0
deriving DecidableEq, Repr

/-- Python truthiness of a string-or-None value: `None` and `""` are falsy. -/
def strTruthy : Option String → Bool
  | none => false
  | some s => decide (s ≠ "")

/-- Whitespace-separated tokens of a character list (`cur` is the current token,
reversed). Models Python `re.split` on whitespace runs with stripping. -/
def wsTokensAux : List Char → List Char → List (List Char)
  | cur, [] => if cur.isEmpty then [] else [cur.reverse]
  | cur, c :: rest =>
    if c.isWhitespace then
      if cur.isEmpty then wsTokensAux [] rest else cur.reverse :: wsTokensAux [] rest
    else wsTokensAux (c :: cur) rest

/-- Join character-list tokens with single spaces. -/
def joinSpace : List (List Char) → List Char
  | [] => []
  | [t] => t
  | t :: u :: rest => t ++ ' ' :: joinSpace (u :: rest)

/-- Name normalization shared by `PoiGraph._normalize_poi_name` and
`PoiAliasCache.normalize_name` (`re.sub` of whitespace runs to a single space on
the stripped string, then lowercase), implemented on the character list. -/
def normalizeName (s : String) : String :=
  String.mk ((joinSpace (wsTokensAux [] s.data)).map Char.toLower)

/-- Python `str.strip`: drop leading and trailing whitespace. -/
def pyStrip (s : String) : String :=
  String.mk (((s.data.dropWhile Char.isWhitespace).reverse.dropWhile Char.isWhitespace).reverse)

/-- Rows of the `url_cache` SQLite table keyed by `(url, destination)`, in insertion order. -/
abbrev UrlStore := List ((String × String) × List PoiSearchResult)

namespace UrlCache

/-- Model of `UrlCache.put`: `INSERT OR REPLACE` on primary key `(url, destination)`
deletes any conflicting row and inserts the new row. Serialization of the result
list is modelled structurally (JSON round-trips it). -/
def put (s : UrlStore) (url destination : String) (results : List PoiSearchResult) : UrlStore :=
  (s.filter (fun kv => decide (kv.1 ≠ (url, destination)))) ++ [((url, destination), results)]

/-- Model of `UrlCache.get`: `SELECT results_json ... WHERE url = ? AND destination = ?`,
deserialized; `none` when no row matches. -/
def get (s : UrlStore) (url destination : String) : Option (List PoiSearchResult) :=
  (s.find? (fun kv => decide (kv.1 = (url, destination)))).map (fun kv => kv.2)

/-- Model of `UrlCache.has`. -/
def has (s : UrlStore) (url destination : String) : Bool :=
  (s.find? (fun kv => decide (kv.1 = (url, destination)))).isSome

end UrlCache

/-- Rows of the `poi_alias` SQLite table keyed by `(name, city)`, in insertion order. -/
abbrev AliasStore := List ((String × String) × String)

namespace PoiAliasCache

/-- Model of `PoiAliasCache.normalize_name` (same algorithm as `normalizeName`). -/
def normalize_name (s : String) : String := normalizeName s

/-- Model of `PoiAliasCache.add`: empty normalized name or empty place id is
silently ignored; `INSERT OR IGNORE` leaves an existing `(name, city)` row intact. -/
def add (s : AliasStore) (name city place_id : String) : AliasStore :=
  let normalized := normalize_name name
  if normalized = "" ∨ place_id = "" then s
  else if (s.find? (fun kv => decide (kv.1 = (normalized, city)))).isSome then s
  else s ++ [((normalized, city), place_id)]

/-- Model of `PoiAliasCache.find_by_name`: normalize, then exact `(name, city)` lookup. -/
def find_by_name (s : AliasStore) (name city : String) : Option String :=
  let normalized := normalize_name name
  if normalized = "" then none
  else (s.find? (fun kv => decide (kv.1 = (normalized, city)))).map (fun kv => kv.2)

/-- Model of `PoiAliasCache.has_place_id`. -/
def has_place_id (s : AliasStore) (place_id : String) : Bool :=
  if place_id = "" then false
  else (s.find? (fun kv => decide (kv.2 = place_id))).isSome

end PoiAliasCache

/-- Names of the abstract methods declared (with `@abstractmethod`) on
`BaseVectorSearchAgent` in `VectorDB/BaseVectorSearchAgent.py`. -/
def baseVectorSearchAgentAbstractMethods : List String :=
  ["search", "search_by_text", "add_poi", "add_pois_batch",
   "search_with_data", "search_by_text_with_data",
   "find_by_name", "find_by_google_place_id", "get_collection_size"]

/-- Names of the methods actually defined on `VectorSearchAgent` in
`VectorDB/VectorSearchAgent.py` (its complete method table). -/
def vectorSearchAgentMethods : List String :=
  ["__init__", "_initialize", "search", "search_by_text",
   "_build_metadata", "_reconstruct_poi_data", "add_poi", "add_pois_batch",
   "search_with_data", "search_by_text_with_data", "get_collection_size"]

/-- Python can instantiate an ABC subclass only when every abstract method is
overridden; this predicate models that instantiation check for `VectorSearchAgent`. -/
def vectorSearchAgentInstantiable : Bool :=
  baseVectorSearchAgentAbstractMethods.all (fun m => vectorSearchAgentMethods.contains m)

/-- Insert `a` into a descending-sorted list, after all entries whose key is at
least `key a` (so that equal keys keep their existing order). -/
def insertByDesc (key : α → ℚ) (a : α) : List α → List α
  | [] => [a]
  | b :: bs => if key a ≤ key b then b :: insertByDesc key a bs else a :: b :: bs

/-- Stable descending sort by `key`: inserting the elements left to right keeps
equal keys in input order, so this computes exactly the result of Python
`list.sort(key=..., reverse=True)` (a stable sort). -/
def sortByKeyDesc (key : α → ℚ) (l : List α) : List α :=
  l.foldl (fun acc x => insertByDesc key x acc) []

/-- Python `results.sort(key=lambda x: x.relevance_score, reverse=True)`. -/
def sortByScoreDesc (l : List PoiSearchResult) : List PoiSearchResult :=
  sortByKeyDesc (fun r => r.relevance_score) l

namespace ResultMerger

/-- Model of `ResultMerger._get_result_key`: prefer a truthy `poi_id`, else a
truthy `url`, else the title. -/
def getResultKey (r : PoiSearchResult) : String :=
  if strTruthy r.poi_id then "poi:" ++ r.poi_id.getD ""
  else if strTruthy r.url then "url:" ++ r.url.getD ""
  else "title:" ++ r.title

/-- In-place update of a duplicate entry: add the weighted score; on the
embedding pass (`upd = true`) also overwrite `poi_id` when the incoming
candidate supplies a truthy one. -/
def bumpEntry (upd : Bool) (r : PoiSearchResult) (w : ℚ) (e : PoiSearchResult) : PoiSearchResult :=
  let e1 := { e with relevance_score := e.relevance_score + r.relevance_score * w }
  if upd && strTruthy r.poi_id then { e1 with poi_id := r.poi_id } else e1

/-- One iteration of the merge loops in `ResultMerger.merge`: the insertion-ordered
dict `scored_results` is an association list; a seen key bumps the existing entry,
an unseen key appends a weighted copy. -/
def mergeStep (w : ℚ) (upd : Bool) (acc : List (String × PoiSearchResult)) (r : PoiSearchResult) :
    List (String × PoiSearchResult) :=
  let key := getResultKey r
  if acc.any (fun kv => decide (kv.1 = key)) then
    acc.map (fun kv => if kv.1 = key then (kv.1, bumpEntry upd r w kv.2) else kv)
  else
    acc ++ [(key, { r with relevance_score := r.relevance_score * w })]

/-- The `scored_results` dict after both passes of `ResultMerger.merge`
(web pass with `web_weight`, no id update; embedding pass with
`embedding_weight`, updating `poi_id` on duplicates). -/
def mergeAssoc (web_weight embedding_weight : ℚ)
    (web_results embedding_results : List PoiSearchResult) :
    List (String × PoiSearchResult) :=
  let afterWeb := web_results.foldl (mergeStep web_weight false) []
  embedding_results.foldl (mergeStep embedding_weight true) afterWeb

/-- Model of `ResultMerger.merge`: accumulate both passes, take the dict values,
sort by weighted score descending. -/
def merge (web_weight embedding_weight : ℚ)
    (web_results embedding_results : List PoiSearchResult) : List PoiSearchResult :=
  sortByScoreDesc ((mergeAssoc web_weight embedding_weight web_results embedding_results).map
    (fun kv => kv.2))

/-- Score found for key `k` in the accumulated dict, if any. -/
def lookupScore (k : String) (acc : List (String × PoiSearchResult)) : Option ℚ :=
  (acc.find? (fun kv => decide (kv.1 = k))).map (fun kv => kv.2.relevance_score)

/-- Entry stored under key `k` in the accumulated dict, if any
(`scored_results.get(key)` in the source). -/
def lookupEntry (k : String) (acc : List (String × PoiSearchResult)) :
    Option PoiSearchResult :=
  (acc.find? (fun kv => decide (kv.1 = k))).map (fun kv => kv.2)

/-- Sum of the raw (unweighted) scores of the candidates of `l` whose merge key is `k`. -/
def keySum (k : String) (l : List PoiSearchResult) : ℚ :=
  ((l.filter (fun r => decide (getResultKey r = k))).map (fun r => r.relevance_score)).sum

end ResultMerger

/-- One regex match of `<score id="(\d+)">([\d.]+)</score>` in `Reranker._parse_scores`:
`idx` is the integer match of the id group; `val` is the float parse of the score
group, `none` when `float()` raises `ValueError` (e.g. on "1.2.3"). -/
structure ScoreMatch where
  idx : ℕ
  val : Option ℚ
deriving DecidableEq, Repr

namespace Reranker

/-- Python `min(max(score, 0.0), 1.0)`. -/
def clamp01 (q : ℚ) : ℚ := min (max q 0) 1

/-- Model of `Reranker._parse_scores`: start from `count` zeros; each match with a
parseable value and in-bounds 1-based id overwrites that slot with the clamped score. -/
def parse_scores (ms : List ScoreMatch) (count : ℕ) : List ℚ :=
  ms.foldl
    (fun scores mt =>
      match mt.val with
      | none => scores
      | some v =>
        if 1 ≤ mt.idx ∧ mt.idx ≤ count then scores.set (mt.idx - 1) (clamp01 v) else scores)
    (List.replicate count 0)

/-- Model of `Reranker.rerank`. The LLM call plus response is abstracted as
`resp`: `none` models an exception (LLM error), in which case the source
returns the input unchanged and leaves `dropped_out` untouched; `some matches`
is the parsed `<score>` matches of the response. The second component of the
result is the list of `(title, score)` pairs appended to `dropped_out`. -/
def rerank (results : List PoiSearchResult) (resp : Option (List ScoreMatch))
    (min_score : ℚ) : List PoiSearchResult × List (String × ℚ) :=
  if results.isEmpty then ([], [])
  else
    match resp with
    | none => (results, [])
    | some ms =>
      let scores := parse_scores ms results.length
      let sortedPairs := sortByKeyDesc (fun p => p.2) (results.zip scores)
      sortedPairs.foldl
        (fun acc pr =>
          if pr.2 < min_score then (acc.1, acc.2 ++ [(pr.1.title, pr.2)])
          else (acc.1 ++ [{ pr.1 with relevance_score := pr.2 }], acc.2))
        ([], [])

end Reranker

/-- Chroma metadata record written by `VectorSearchAgent._build_metadata`.
Slots that the source fills with a number-or-empty-string (`latitude`,
`google_rating`, ...) are typed `Option` with `none` for `""`; the
JSON-string slots `types` and `opening_hours` carry the structured value
(`json.loads` inverts `json.dumps`, `model_validate_json` inverts
`model_dump_json`). -/
structure PoiMetadata where
  name : String
  category : String
  description : String
  city : String
  address : String
  source : String
  source_url : String
  google_place_id : String
  latitude : Option ℚ
  longitude : Option ℚ
  google_maps_uri : String
  types : List String
  primary_type : String
  google_rating : Option ℚ
  user_rating_count : Option ℤ
  price_level : String
  price_range : String
  website_uri : String
  phone_number : String
  opening_hours : Option OpeningHours
deriving DecidableEq, Repr

/-- Inverse of the `poi.field or ""` convention: `""` becomes `None` again. -/
def blankToNone (s : String) : Option String :=
  if s = "" then none else some s

/-- Null normalization at the metadata boundary: `some ""` and `none` collapse to `none`. -/
def normOptStr : Option String → Option String
  | none => none
  | some s => if s = "" then none else some s

/-- Python truthiness of a float-or-None value: `None` and `0.0` are falsy. -/
def ratTruthy : Option ℚ → Bool
  | none => false
  | some q => decide (q ≠ 0)

/-- Python truthiness of an int-or-None value: `None` and `0` are falsy. -/
def intTruthy : Option ℤ → Bool
  | none => false
  | some n => decide (n ≠ 0)

namespace VectorSearchAgent

/-- Model of `VectorSearchAgent._build_metadata`: every `PoiData` field except
`id`, `raw_text` (stored as the document) and `created_at` (not serialized) is
written to the metadata dict, with `None` options rendered as `""`. -/
def _build_metadata (poi : PoiData) : PoiMetadata :=
  { name := poi.name
    category := poi.category.value
    description := poi.description
    city := poi.city.getD ""
    address := poi.address.getD ""
    source := poi.source.value
    source_url := poi.source_url.getD ""
    google_place_id := poi.google_place_id.getD ""
    latitude := poi.latitude
    longitude := poi.longitude
    google_maps_uri := poi.google_maps_uri.getD ""
    types := poi.types
    primary_type := poi.primary_type.getD ""
    google_rating := poi.google_rating
    user_rating_count := poi.user_rating_count
    price_level := poi.price_level.getD ""
    price_range := poi.price_range.getD ""
    website_uri := poi.website_uri.getD ""
    phone_number := poi.phone_number.getD ""
    opening_hours := poi.opening_hours }

/-- Model of `VectorSearchAgent._reconstruct_poi_data`. The pydantic model is
rebuilt from the metadata dict and the stored document; empty-string slots
become `None`; `created_at` is freshly generated (`datetime.now()`), modelled
by the explicit `now` argument; an unknown enum value raises (`none`). -/
def _reconstruct_poi_data (now : ℕ) (doc_id : String) (metadata : PoiMetadata)
    (document : String) : Option PoiData :=
  match PoiCategory.ofValue metadata.category, PoiSource.ofValue metadata.source with
  | some cat, some src =>
    some
      { id := doc_id
        name := metadata.name
        category := cat
        description := metadata.description
        city := blankToNone metadata.city
        address := blankToNone metadata.address
        source := src
        source_url := blankToNone metadata.source_url
        raw_text := document
        created_at := now
        google_place_id := blankToNone metadata.google_place_id
        latitude := metadata.latitude
        longitude := metadata.longitude
        google_maps_uri := blankToNone metadata.google_maps_uri
        types := metadata.types
        primary_type := blankToNone metadata.primary_type
        google_rating := metadata.google_rating
        user_rating_count := metadata.user_rating_count
        price_level := blankToNone metadata.price_level
        price_range := blankToNone metadata.price_range
        website_uri := blankToNone metadata.website_uri
        phone_number := blankToNone metadata.phone_number
        opening_hours := metadata.opening_hours }
  | _, _ => none

end VectorSearchAgent

/-- The round-trip image of a POI through the vector-store metadata boundary:
`created_at` is regenerated at reconstruction time and `some ""` string options
collapse to `none`; all other fields are unchanged. -/
def normalizePoiAtBoundary (now : ℕ) (p : PoiData) : PoiData :=
  { p with
    created_at := now
    city := normOptStr p.city
    address := normOptStr p.address
    source_url := normOptStr p.source_url
    google_place_id := normOptStr p.google_place_id
    google_maps_uri := normOptStr p.google_maps_uri
    primary_type := normOptStr p.primary_type
    price_level := normOptStr p.price_level
    price_range := normOptStr p.price_range
    website_uri := normOptStr p.website_uri
    phone_number := normOptStr p.phone_number }

/-- Argument actually reaching `EmbeddingPipeline.structured_summary_formatter`:
the declared signature takes `PoiData`, but `add_poi` / `add_pois_batch` pass
the raw-text strings `poi.raw_text`. -/
inductive EmbedInput where
  | rawStr (s : String)
  | poiDoc (p : PoiData)
deriving DecidableEq, Repr

namespace EmbeddingPipeline

/-- Model of `EmbeddingPipeline.structured_summary_formatter`. On a string
input the very first attribute access `poiData.primary_type` raises
`AttributeError`; on a genuine `PoiData` the accesses up to the price block
succeed, after which `poiData.editorial_summary` raises `AttributeError`,
because `PoiData` (see `models/PoiAgentDataclass/poi.py`) defines no
`editorial_summary` / `generative_summary` / `review_summary` fields. -/
def structured_summary_formatter : EmbedInput → Except String String
  | .rawStr _ => .error "AttributeError: str object has no attribute primary_type"
  | .poiDoc p =>
    let parts0 := [if strTruthy p.primary_type then p.primary_type.getD "" else p.category.value]
    let parts1 :=
      if ratTruthy p.google_rating then
        parts0 ++ [if intTruthy p.user_rating_count then "rating+count" else "rating"]
      else parts0
    let _parts2 :=
      if strTruthy p.price_range then parts1 ++ [p.price_range.getD ""]
      else if strTruthy p.price_level then parts1 ++ [p.price_level.getD ""]
      else parts1
    .error "AttributeError: PoiData object has no attribute editorial_summary"

/-- Model of `EmbeddingPipeline.embed_documents`: format every document, then
encode. The encoder output is abstracted (never reached on a non-empty input,
since the formatter raises). -/
def embed_documents (documents : List EmbedInput) : Except String (List (List ℚ)) :=
  match documents.mapM structured_summary_formatter with
  | .error e => .error e
  | .ok texts => .ok (texts.map (fun _ => []))

end EmbeddingPipeline

/-- Chroma collection contents: `(id, document, metadata)` triples in insertion order. -/
abbrev ChromaStore := List (String × String × PoiMetadata)

namespace VectorSearchAgent

/-- Model of `VectorSearchAgent.add_pois_batch`: dedup the batch by id (first
occurrence wins), drop ids already in the collection, embed the remaining
documents (`poi.raw_text` strings) via `EmbeddingPipeline.embed_documents`,
then add. Any exception inside the `try` block — in particular the
`AttributeError` raised by the embedding pipeline — yields `(0, store)`,
matching the source's `except` branch that returns 0. -/
def add_pois_batch (store : ChromaStore) (pois : List PoiData) : ℕ × ChromaStore :=
  if pois.isEmpty then (0, store)
  else
    let uniquePois :=
      (pois.foldl
        (fun (acc : List String × List PoiData) poi =>
          if acc.1.contains poi.id then acc else (acc.1 ++ [poi.id], acc.2 ++ [poi]))
        ([], [])).2
    let existingIds :=
      (uniquePois.map (fun p => p.id)).filter (fun i => store.any (fun e => decide (e.1 = i)))
    let newPois := uniquePois.filter (fun p => !existingIds.contains p.id)
    if newPois.isEmpty then (0, store)
    else
      match EmbeddingPipeline.embed_documents (newPois.map (fun p => .rawStr p.raw_text)) with
      | .error _ => (0, store)
      | .ok _ =>
        (newPois.length, store ++ newPois.map (fun p => (p.id, p.raw_text, _build_metadata p)))

end VectorSearchAgent

/-- Fuel-indexed worker for `chunksBy`; the fuel (the list length at the top
call) strictly exceeds the number of chunks, so the zero-fuel case is unreachable. -/
def chunksByAux (n : ℕ) : ℕ → List α → List (List α)
  | 0, _ => []
  | _, [] => []
  | fuel + 1, a :: rest =>
    if n = 0 then []
    else (a :: rest).take n :: chunksByAux n fuel ((a :: rest).drop n)

/-- Consecutive chunks of size `n` (Python `range(0, len(l), n)` slicing);
`n = 0` never occurs in the source (batch sizes 10 and 5). -/
def chunksBy (n : ℕ) (l : List α) : List (List α) :=
  chunksByAux n l.length l

/-- External collaborators a pipeline run can invoke. -/
inductive Call where
  | llm
  | webProvider
  | contentReader
  | placeResolver
  | encoder
deriving DecidableEq, Repr

/-- Pipeline nodes of the LangGraph workflow built by `PoiGraph._build_graph`. -/
inductive NodeTag where
  | extract_keywords
  | vector_db_first_search
  | rerank_embedding
  | web_search
  | process_and_rerank_web
  | merge_results
deriving DecidableEq, Repr

/-- Outcome of `process_single_poi` for one web candidate inside
`PoiGraph._process_and_rerank_web`, abstracting the summarizer / alias-cache /
place-resolver interaction: the error strings, an alias hit returning an
existing POI, or a freshly mapped POI. -/
inductive ProcOutcome where
  | summarizeFailed
  | mapperFailed
  | otherError
  | aliasHit (sr : PoiSearchResult) (pd : PoiData)
  | mapped (sr : PoiSearchResult) (pd : PoiData)
deriving DecidableEq, Repr

/-- Accumulated outcome of one batch of `process_single_poi` tasks. -/
structure BatchOutcome where
  results : List PoiSearchResult
  poiData : List PoiData
  calls : List Call
deriving Repr

/-- Per-candidate processing of one batch: successes contribute their search
result and POI data; each candidate costs one summarizer LLM call, plus one
place-resolver call unless it was an alias hit or failed before the resolver. -/
def processBatch (o : PoiSearchResult → ProcOutcome) (batch : List PoiSearchResult) : BatchOutcome :=
  batch.foldl
    (fun acc r =>
      match o r with
      | .aliasHit sr pd => ⟨acc.results ++ [sr], acc.poiData ++ [pd], acc.calls ++ [Call.llm]⟩
      | .mapped sr pd =>
        ⟨acc.results ++ [sr], acc.poiData ++ [pd], acc.calls ++ [Call.llm, Call.placeResolver]⟩
      | .summarizeFailed => ⟨acc.results, acc.poiData, acc.calls ++ [Call.llm]⟩
      | .mapperFailed => ⟨acc.results, acc.poiData, acc.calls ++ [Call.llm, Call.placeResolver]⟩
      | .otherError => ⟨acc.results, acc.poiData, acc.calls ++ [Call.llm]⟩)
    ⟨[], [], []⟩

/-- Upsert into an insertion-ordered dict (Python `d[k] = v`). -/
def assocSet (m : List (String × PoiData)) (k : String) (v : PoiData) : List (String × PoiData) :=
  if m.any (fun kv => decide (kv.1 = k)) then
    m.map (fun kv => if kv.1 = k then (k, v) else kv)
  else m ++ [(k, v)]

/-- Python `{**existing, **new}` on insertion-ordered dicts (the
`_merge_poi_data_map` state reducer): new entries win. -/
def mergePoiMap (old new : List (String × PoiData)) : List (String × PoiData) :=
  new.foldl (fun acc kv => assocSet acc kv.1 kv.2) old

namespace PoiGraph

/-- The constant `MIN_SCORE = 0.5` of `_process_and_rerank_web`
(as `mkRat 1 2`, which the kernel can evaluate). -/
def MIN_SCORE : ℚ := mkRat 1 2

/-- The count `good_count = |{r : r.relevance_score >= MIN_SCORE}|`. -/
def goodCount (l : List PoiSearchResult) : ℕ :=
  l.countP (fun r => decide (MIN_SCORE ≤ r.relevance_score))

/-- The constant `TARGET_COUNT = travel_days * 10 if travel_days > 0 else 20`
of `_process_and_rerank_web` (line 238 of `PoiGraph.py`). -/
def TARGET_COUNT (travel_days : ℕ) : ℕ :=
  if 0 < travel_days then travel_days * 10 else 20

/-- Result of the batch loop of `_process_and_rerank_web`: the accumulated
reranked list (pre final sort), the accumulated `all_poi_data` dict, the
external calls made, and the number of batches processed before the loop
ended (by early termination or exhaustion). -/
structure WebLoopResult where
  reranked : List PoiSearchResult
  poiMap : List (String × PoiData)
  calls : List Call
  processed : ℕ
deriving Repr

/-- The batch loop of `_process_and_rerank_web`: process a batch, store its POI
data, rerank it when non-empty, extend the accumulator, then break as soon as
`good_count >= target`. `m` abstracts the reranker LLM round-trip per batch. -/
def webLoopAux (o : PoiSearchResult → ProcOutcome)
    (m : List PoiSearchResult → Option (List ScoreMatch)) (min_score : ℚ) (target : ℕ)
    (acc : List PoiSearchResult) (pm : List (String × PoiData)) (cs : List Call) :
    List (List PoiSearchResult) → WebLoopResult
  | [] => ⟨acc, pm, cs, 0⟩
  | b :: rest =>
    let pb := processBatch o b
    let pm2 := pb.poiData.foldl (fun accm pd => assocSet accm pd.id pd) pm
    let rr :=
      if pb.results.isEmpty then (([], []) : List PoiSearchResult × List (String × ℚ))
      else Reranker.rerank pb.results (m pb.results) min_score
    let rcalls : List Call := if pb.results.isEmpty then [] else [Call.llm]
    let acc2 := acc ++ rr.1
    let cs2 := cs ++ pb.calls ++ rcalls
    if target ≤ goodCount acc2 then ⟨acc2, pm2, cs2, 1⟩
    else
      let res := webLoopAux o m min_score target acc2 pm2 cs2 rest
      ⟨res.reranked, res.poiMap, res.calls, res.processed + 1⟩

/-- The batch loop started on an empty accumulator. -/
def webLoop (o : PoiSearchResult → ProcOutcome)
    (m : List PoiSearchResult → Option (List ScoreMatch)) (min_score : ℚ) (target : ℕ)
    (batches : List (List PoiSearchResult)) : WebLoopResult :=
  webLoopAux o m min_score target [] [] [] batches

end PoiGraph

/-- LangGraph state threaded through the orchestrator
(`PoiAgentState` in `models/PoiAgentDataclass/poi.py`); the raw date strings,
`final_pois`, and the stats object are omitted (no modelled node reads them). -/
structure PoiAgentState where
  travel_destination : String
  persona_summary : String
  keywords : List String
  web_results : List PoiSearchResult
  embedding_results : List PoiSearchResult
  reranked_web_results : List PoiSearchResult
  reranked_embedding_results : List PoiSearchResult
  merged_results : List PoiSearchResult
  poi_data_map : List (String × PoiData)
  final_poi_data : List PoiData
  final_poi_count : ℤ
  travel_days : ℕ
deriving Repr

/-- Deterministic oracles standing for the external collaborators: the parsed
`<keyword>` matches of the keyword-extraction LLM response, the vector store
query (encoder plus ANN search), the reranker LLM response per batch, the web
provider results (post-extraction, per keyword), the number of content-reader
page fetches per keyword, and the per-candidate summarizer/resolver outcome. -/
structure Providers where
  keywordMatches : List String
  vectorQuery : String → ℕ → String → List (PoiSearchResult × PoiData)
  rerankResp : List PoiSearchResult → Option (List ScoreMatch)
  webResults : String → List PoiSearchResult
  webReaderPages : String → ℕ
  procOutcome : PoiSearchResult → ProcOutcome

/-- Constructor-time configuration of `PoiGraph`. -/
structure Config where
  rerank_min_score : ℚ
  keyword_k : ℕ
  embedding_k : ℕ
  web_search_k : ℕ
  final_poi_count : ℤ
  web_weight : ℚ
  embedding_weight : ℚ

namespace PoiGraph

/-- Model of `_extract_keywords` / `QueryExtension.extract_keywords`: an empty
persona returns no keywords without calling the LLM; otherwise the LLM is
called and the `<keyword>` matches are stripped and filtered. -/
def _extract_keywords (P : Providers) (s : PoiAgentState) : PoiAgentState × List Call :=
  if s.persona_summary = "" then ({ s with keywords := [] }, [])
  else
    ({ s with keywords := (P.keywordMatches.map (fun k => pyStrip k)).filter (fun k => decide (k ≠ "")) },
     [Call.llm])

/-- The constant `RELEVANCE_THRESHOLD = 0.3` of `_vector_db_first_search`. -/
def RELEVANCE_THRESHOLD : ℚ := mkRat 3 10

/-- Model of `_vector_db_first_search`: one store query with the persona text,
dedup by truthy unseen `poi_id`, keep scores at or above the relevance floor,
and record the reconstructed POI data. -/
def _vector_db_first_search (P : Providers) (cfg : Config) (s : PoiAgentState) :
    PoiAgentState × List Call :=
  let pairs := P.vectorQuery s.persona_summary cfg.embedding_k s.travel_destination
  let acc := pairs.foldl
    (fun (acc : List String × List PoiSearchResult × List (String × PoiData)) pr =>
      let pid := pr.1.poi_id.getD ""
      if strTruthy pr.1.poi_id && !acc.1.contains pid then
        if RELEVANCE_THRESHOLD ≤ pr.1.relevance_score then
          (acc.1 ++ [pid], acc.2.1 ++ [pr.1], acc.2.2 ++ [(pid, pr.2)])
        else (acc.1 ++ [pid], acc.2.1, acc.2.2)
      else acc)
    ([], [], [])
  ({ s with embedding_results := acc.2.1, poi_data_map := mergePoiMap s.poi_data_map acc.2.2 },
   [Call.encoder])

/-- Model of `_rerank_embedding`: rerank in slices of 5 (one LLM call per
non-empty slice), concatenate, sort descending. -/
def _rerank_embedding (P : Providers) (cfg : Config) (s : PoiAgentState) :
    PoiAgentState × List Call :=
  let slices := chunksBy 5 s.embedding_results
  let reranked :=
    (slices.map (fun sl => (Reranker.rerank sl (P.rerankResp sl) cfg.rerank_min_score).1)).flatten
  let calls := slices.flatMap (fun sl => if sl.isEmpty then [] else [Call.llm])
  ({ s with reranked_embedding_results := sortByScoreDesc reranked }, calls)

/-- Model of `_check_poi_sufficiency`: enough reranked embedding results means
the web branch is skipped. -/
def _check_poi_sufficiency (s : PoiAgentState) : Bool :=
  decide ((s.reranked_embedding_results.length : ℤ) ≥ s.final_poi_count)

/-- Model of `_web_search`: nothing happens without keywords; otherwise the
provider is called for the first `keyword_k` keywords, results are flattened
and deduplicated by normalized title. Each keyword costs one provider call and
`webReaderPages` content-reader fetches. -/
def _web_search (P : Providers) (cfg : Config) (s : PoiAgentState) :
    PoiAgentState × List Call :=
  if s.keywords.isEmpty then ({ s with web_results := [] }, [])
  else
    let taken := s.keywords.take cfg.keyword_k
    let results := taken.flatMap P.webResults
    let unique :=
      (results.foldl
        (fun (acc : List String × List PoiSearchResult) r =>
          let nt := normalizeName r.title
          if acc.1.contains nt then acc else (acc.1 ++ [nt], acc.2 ++ [r]))
        ([], [])).2
    let calls := taken.flatMap
      (fun kw => Call.webProvider :: List.replicate (P.webReaderPages kw) Call.contentReader)
    ({ s with web_results := unique }, calls)

/-- Model of `_process_and_rerank_web`: empty web results short-circuit with no
external calls; otherwise the batch loop runs with batches of 10 and the
result is sorted descending. The vector-store admission inside the loop only
affects the store, not the returned state, and is elided here. -/
def _process_and_rerank_web (P : Providers) (cfg : Config) (s : PoiAgentState) :
    PoiAgentState × List Call :=
  if s.web_results.isEmpty then
    ({ s with reranked_web_results := [], poi_data_map := mergePoiMap s.poi_data_map [] }, [])
  else
    let target := TARGET_COUNT s.travel_days
    let r := webLoop P.procOutcome P.rerankResp cfg.rerank_min_score target
      (chunksBy 10 s.web_results)
    ({ s with
        reranked_web_results := sortByScoreDesc r.reranked
        poi_data_map := mergePoiMap s.poi_data_map r.poiMap },
     r.calls)

/-- Model of `_merge_results`: merge both reranked lists, then resolve each
merged candidate with a truthy `poi_id` through `poi_data_map` (entries
missing from the map are dropped with a warning). The alias registrations
derived from merge duplicates touch only the alias store and are elided. -/
def _merge_results (cfg : Config) (s : PoiAgentState) : PoiAgentState × List Call :=
  let merged := ResultMerger.merge cfg.web_weight cfg.embedding_weight
    s.reranked_web_results s.reranked_embedding_results
  let final := merged.filterMap
    (fun r =>
      match r.poi_id with
      | some pid =>
        if pid ≠ "" then (s.poi_data_map.find? (fun kv => decide (kv.1 = pid))).map (fun kv => kv.2)
        else none
      | none => none)
  ({ s with merged_results := merged, final_poi_data := final }, [])

/-- States and calls after the unconditional prefix
`extract_keywords → vector_db_first_search → rerank_embedding`. -/
def pipelineFirstStages (P : Providers) (cfg : Config) (s0 : PoiAgentState) :
    PoiAgentState × List Call :=
  let e := _extract_keywords P s0
  let v := _vector_db_first_search P cfg e.1
  let r := _rerank_embedding P cfg v.1
  (r.1, e.2 ++ v.2 ++ r.2)

/-- Model of the compiled graph of `_build_graph`: the prefix, then the
conditional edge out of `rerank_embedding` — sufficient goes straight to
`merge_results`, insufficient runs the web path first. Returns the final
state, the trace of executed nodes, and all external calls. -/
def pipelineRun (P : Providers) (cfg : Config) (s0 : PoiAgentState) :
    PoiAgentState × List NodeTag × List Call :=
  let pre := pipelineFirstStages P cfg s0
  if _check_poi_sufficiency pre.1 then
    let m := _merge_results cfg pre.1
    (m.1,
     [NodeTag.extract_keywords, NodeTag.vector_db_first_search, NodeTag.rerank_embedding,
      NodeTag.merge_results],
     pre.2 ++ m.2)
  else
    let w := _web_search P cfg pre.1
    let pw := _process_and_rerank_web P cfg w.1
    let m := _merge_results cfg pw.1
    (m.1,
     [NodeTag.extract_keywords, NodeTag.vector_db_first_search, NodeTag.rerank_embedding,
      NodeTag.web_search, NodeTag.process_and_rerank_web, NodeTag.merge_results],
     pre.2 ++ w.2 ++ pw.2 ++ m.2)

/-- Date argument of `run` as seen by `datetime.strptime`: the empty string,
an unparseable string, or a parsed date abstracted by its ordinal day number. -/
inductive DateInput where
  | missing
  | invalid
  | valid (ordinal : ℤ)
deriving DecidableEq, Repr

/-- Travel-day computation in `run`: `(end - start).days + 1`, coerced to 0
(the state stores `travel_days or 0`) when a date is missing/invalid or the
difference is less than 1. -/
def run_travel_days : DateInput → DateInput → ℕ
  | .valid sd, .valid ed => let d := ed - sd + 1; if d < 1 then 0 else d.toNat
  | _, _ => 0

/-- Result of a `PoiGraph.run` invocation. -/
structure RunResult where
  final_poi_data : List PoiData
  state : PoiAgentState
  nodes : List NodeTag
  calls : List Call

/-- Model of `PoiGraph.run`: compute `travel_days` and the dynamic target
(`travel_days * 5`, falling back to the configured `final_poi_count`), build
the initial state, and invoke the graph. -/
def run (P : Providers) (cfg : Config) (persona_summary travel_destination : String)
    (start_date end_date : DateInput) : RunResult :=
  let days := run_travel_days start_date end_date
  let dynamic_poi_count : ℤ := if days ≠ 0 then (days : ℤ) * 5 else cfg.final_poi_count
  let s0 : PoiAgentState :=
    { travel_destination := travel_destination
      persona_summary := persona_summary
      keywords := []
      web_results := []
      embedding_results := []
      reranked_web_results := []
      reranked_embedding_results := []
      merged_results := []
      poi_data_map := []
      final_poi_data := []
      final_poi_count := dynamic_poi_count
      travel_days := days }
  let res := pipelineRun P cfg s0
  ⟨res.1.final_poi_data, res.1, res.2.1, res.2.2⟩

end PoiGraph

/-- Baseline POI record used to build concrete instances in the analyses below. -/
def defaultPoiData : PoiData :=
  { id := "p1", name := "n", category := .other, description := "", city := none,
    address := none, source := .web_search, source_url := none, raw_text := "text",
    created_at := 0, google_place_id := none, latitude := none, longitude := none,
    google_maps_uri := none, types := [], primary_type := none, google_rating := none,
    user_rating_count := none, price_level := none, price_range := none,
    website_uri := none, phone_number := none, opening_hours := none }

/-- Baseline search candidate used to build concrete instances in the analyses below. -/
def defaultCand : PoiSearchResult :=
  { poi_id := none, title := "", snippet := "", url := none, source := .web_search,
    relevance_score := 0 }

/-- Trivial provider oracle (no store contents, failing reranker, no web results). -/
def emptyProviders : Providers :=
  { keywordMatches := [], vectorQuery := fun _ _ _ => [], rerankResp := fun _ => none,
    webResults := fun _ => [], webReaderPages := fun _ => 0,
    procOutcome := fun _ => .otherError }

/-- Default-style configuration used in concrete runs. -/
def defaultConfig : Config :=
  { rerank_min_score := mkRat 1 2, keyword_k := 3, embedding_k := 5, web_search_k := 3,
    final_poi_count := 0, web_weight := mkRat 3 5, embedding_weight := mkRat 2 5 }

/-- Initial state with no inputs, used in concrete pipeline runs. -/
def emptyState : PoiAgentState :=
  { travel_destination := "Seoul", persona_summary := "", keywords := [],
    web_results := [], embedding_results := [], reranked_web_results := [],
    reranked_embedding_results := [], merged_results := [], poi_data_map := [],
    final_poi_data := [], final_poi_count := 0, travel_days := 0 }

/-- Stored embedding candidate returned by the vector store in the empty-persona analysis. -/
def c6Sr : PoiSearchResult :=
  { poi_id := some "e1", title := "T", snippet := "sn", url := none,
    source := .embedding_db, relevance_score := 1 }

/-- Stored POI paired with `c6Sr`. -/
def c6Poi : PoiData := { defaultPoiData with id := "e1" }

/-- Provider oracle for the empty-persona analysis: the vector store returns one
relevant stored POI and the reranker LLM scores it 1.0. -/
def c6Prov : Providers :=
  { keywordMatches := [], vectorQuery := fun _ _ _ => [(c6Sr, c6Poi)],
    rerankResp := fun _ => some [⟨1, some 1⟩], webResults := fun _ => [],
    webReaderPages := fun _ => 0, procOutcome := fun _ => .otherError }

/-- Configuration for the empty-persona analysis (fallback target 1). -/
def c6Cfg : Config := { defaultConfig with final_poi_count := 1 }

/-- Fully populated POI used for the metadata round-trip analysis. -/
def c5Poi : PoiData :=
  { id := "id1", name := "Name", category := .cafe, description := "desc",
    city := some "Seoul", address := some "addr", source := .embedding_db,
    source_url := some "http://s", raw_text := "raw", created_at := 5,
    google_place_id := some "PX123", latitude := some (37:ℚ),
    longitude := some (127:ℚ), google_maps_uri := some "http://m",
    types := ["cafe", "food"], primary_type := some "cafe",
    google_rating := some (mkRat 9 2), user_rating_count := some 100,
    price_level := some "MODERATE", price_range := some "1-2",
    website_uri := some "http://w", phone_number := some "123",
    opening_hours := some { periods := [{ day := 1, slots := [{ open_time := 540, close_time := 1080 }], is_closed := false }], raw_text := some ["Mon 9-18"] } }

lemma categoryOfValue_value (c : PoiCategory) : PoiCategory.ofValue c.value = some c := by
  cases c <;> rfl

lemma sourceOfValue_value (s : PoiSource) : PoiSource.ofValue s.value = some s := by
  cases s <;> rfl

lemma blankToNone_getD (o : Option String) : blankToNone (o.getD "") = normOptStr o := by
  cases o with
  | none => simp [blankToNone, normOptStr]
  | some s => simp [blankToNone, normOptStr]

/-- C4: the spec's exact-match lookups `find_by_name` / `find_by_place_id` are
declared abstract on `BaseVectorSearchAgent` and used by the admission path,
but `VectorSearchAgent` — the only concrete agent, instantiated by
`PoiGraph.__init__` and by every test in `TestVectorSearchAgent.py` —
implements neither, so Python's ABC machinery rejects instantiation
(`TypeError`) and the lookups are not provided. -/
theorem claim_C4_lookups_not_implemented :
    ("find_by_name" ∈ baseVectorSearchAgentAbstractMethods ∧
      "find_by_name" ∉ vectorSearchAgentMethods) ∧
    ("find_by_google_place_id" ∈ baseVectorSearchAgentAbstractMethods ∧
      "find_by_google_place_id" ∉ vectorSearchAgentMethods) ∧
    vectorSearchAgentInstantiable = false := by
  decide

/-- C3: `add_pois_batch` on a fresh collection with one new POI writes nothing
and returns 0 — not 1 as the spec, the method docstring and the integration
test expect — because it hands `embed_documents` the raw-text strings while
`EmbeddingPipeline.embed_documents` formats its inputs as `PoiData`
(`structured_summary_formatter` raises `AttributeError`), and the surrounding
`except` returns 0. -/
theorem claim_C3_add_pois_batch_writes_nothing :
    VectorSearchAgent.add_pois_batch [] [{ defaultPoiData with id := "fresh" }] = (0, []) ∧
    EmbeddingPipeline.embed_documents [EmbedInput.rawStr "text"] =
      Except.error "AttributeError: str object has no attribute primary_type" := by
  constructor
  · rfl
  · rfl

lemma find?_filter_ne {s : UrlStore} {k : String × String} :
    (s.filter (fun kv => decide (kv.1 ≠ k))).find? (fun kv => decide (kv.1 = k)) = none := by
  apply List.find?_eq_none.mpr
  intro x hx
  simp only [List.mem_filter, decide_eq_true_eq] at hx
  simp [hx.2]

/-- C10: on the URL Extraction Cache, a second `put` for the same
`(url, destination)` key replaces the first (`INSERT OR REPLACE`), so `get`
returns the later results; on the Alias Cache, `add` never overwrites an
existing `(name, city)` row (`INSERT OR IGNORE`). -/
theorem claim_C10_cache_overwrite_semantics :
    (∀ (s : UrlStore) (u d : String) (r1 r2 : List PoiSearchResult),
        UrlCache.get (UrlCache.put (UrlCache.put s u d r1) u d r2) u d = some r2) ∧
    (∀ (t : AliasStore) (n c p q : String),
        PoiAliasCache.find_by_name t n c = some q →
        PoiAliasCache.find_by_name (PoiAliasCache.add t n c p) n c = some q) := by
  constructor
  · intro s u d r1 r2
    unfold UrlCache.get UrlCache.put
    rw [List.find?_append, find?_filter_ne]
    simp [List.find?]
  · intro t n c p q h
    have hni : ¬ (PoiAliasCache.normalize_name n = "") := by
      intro he
      simp [PoiAliasCache.find_by_name, he] at h
    have hsome :
        (t.find? (fun kv => decide (kv.1 = (PoiAliasCache.normalize_name n, c)))).isSome := by
      simp only [PoiAliasCache.find_by_name, if_neg hni] at h
      cases ho : t.find? (fun kv => decide (kv.1 = (PoiAliasCache.normalize_name n, c))) with
      | none => rw [ho] at h; simp at h
      | some kv => simp [ho]
    have hadd : PoiAliasCache.add t n c p = t := by
      unfold PoiAliasCache.add
      by_cases hp : p = "" <;> simp [hni, hp, hsome]
    rw [hadd]
    exact h

/-- Witness for C10 at concrete inputs. -/
theorem claim_C10_witness :
    UrlCache.get (UrlCache.put (UrlCache.put [] "u" "d" []) "u" "d" [defaultCand]) "u" "d"
      = some [defaultCand] ∧
    PoiAliasCache.find_by_name (PoiAliasCache.add [(("a", "c"), "p1")] "a" "c" "p2") "a" "c"
      = some "p1" :=
  ⟨claim_C10_cache_overwrite_semantics.1 [] "u" "d" [] [defaultCand],
   claim_C10_cache_overwrite_semantics.2 [(("a", "c"), "p1")] "a" "c" "p2" "p1" (by decide)⟩

/-- C5 counterexample: the round trip is not the identity. `created_at` is not
serialized by `_build_metadata` and is regenerated by the pydantic default at
reconstruction time, so a fully populated POI with `created_at = 5`
reconstructed at time 0 differs from the original. -/
theorem claim_C5_counterexample :
    VectorSearchAgent._reconstruct_poi_data 0 c5Poi.id
      (VectorSearchAgent._build_metadata c5Poi) c5Poi.raw_text ≠ some c5Poi := by
  decide

/-- C5 amended: reconstructing from the serialized metadata and document yields
the original POI on every field except `created_at` (regenerated at
reconstruction time), with `some ""` string options collapsing to `none`. -/
theorem claim_C5_amended (p : PoiData) (now : ℕ) :
    VectorSearchAgent._reconstruct_poi_data now p.id
      (VectorSearchAgent._build_metadata p) p.raw_text
      = some (normalizePoiAtBoundary now p) := by
  simp [VectorSearchAgent._reconstruct_poi_data, VectorSearchAgent._build_metadata,
        categoryOfValue_value, sourceOfValue_value, normalizePoiAtBoundary, blankToNone_getD]

lemma mem_insertByDesc {α : Type} {key : α → ℚ} {a x : α} (l : List α) :
    x ∈ insertByDesc key a l ↔ x = a ∨ x ∈ l := by
  induction l with
  | nil => simp [insertByDesc]
  | cons b bs ih =>
    simp only [insertByDesc]
    split
    · simp only [List.mem_cons, ih]
      tauto
    · simp only [List.mem_cons]

lemma pairwise_insertByDesc {α : Type} {key : α → ℚ} {a : α} {l : List α}
    (h : l.Pairwise (fun x y => key y ≤ key x)) :
    (insertByDesc key a l).Pairwise (fun x y => key y ≤ key x) := by
  induction l with
  | nil => simp [insertByDesc]
  | cons b bs ih =>
    rcases List.pairwise_cons.mp h with ⟨hb, hbs⟩
    simp only [insertByDesc]
    split
    · rename_i hab
      refine List.pairwise_cons.mpr ⟨?_, ih hbs⟩
      intro y hy
      rcases (mem_insertByDesc bs).mp hy with rfl | hy
      · exact hab
      · exact hb y hy
    · rename_i hab
      rw [not_le] at hab
      refine List.pairwise_cons.mpr ⟨?_, h⟩
      intro y hy
      rcases List.mem_cons.mp hy with rfl | hy
      · exact le_of_lt hab
      · exact le_trans (hb y hy) (le_of_lt hab)

lemma pairwise_foldl_insert {α : Type} (key : α → ℚ) :
    ∀ (l acc : List α),
      acc.Pairwise (fun x y => key y ≤ key x) →
      (l.foldl (fun acc x => insertByDesc key x acc) acc).Pairwise
        (fun x y => key y ≤ key x) := by
  intro l
  induction l with
  | nil => intro acc h; simpa using h
  | cons x xs ih => intro acc h; exact ih _ (pairwise_insertByDesc h)

lemma pairwise_sortByKeyDesc {α : Type} (key : α → ℚ) (l : List α) :
    (sortByKeyDesc key l).Pairwise (fun x y => key y ≤ key x) :=
  pairwise_foldl_insert key l [] (by simp)

lemma mem_foldl_insert {α : Type} (key : α → ℚ) (x : α) :
    ∀ (l acc : List α),
      x ∈ l.foldl (fun acc e => insertByDesc key e acc) acc ↔ x ∈ acc ∨ x ∈ l := by
  intro l
  induction l with
  | nil => intro acc; simp
  | cons e es ih =>
    intro acc
    rw [List.foldl_cons, ih, mem_insertByDesc]
    simp only [List.mem_cons]
    tauto

lemma mem_sortByKeyDesc {α : Type} {key : α → ℚ} {x : α} {l : List α} :
    x ∈ sortByKeyDesc key l ↔ x ∈ l := by
  rw [sortByKeyDesc, mem_foldl_insert]
  simp

lemma pairwise_sortByScoreDesc (l : List PoiSearchResult) :
    (sortByScoreDesc l).Pairwise (fun a b => b.relevance_score ≤ a.relevance_score) :=
  pairwise_sortByKeyDesc (fun r => r.relevance_score) l

lemma bumpEntry_score (u : Bool) (r : PoiSearchResult) (w : ℚ) (e : PoiSearchResult) :
    (ResultMerger.bumpEntry u r w e).relevance_score
      = e.relevance_score + r.relevance_score * w := by
  unfold ResultMerger.bumpEntry
  split <;> rfl

lemma find?_map_keyeq {k : String}
    (f : String × PoiSearchResult → String × PoiSearchResult)
    (hf : ∀ kv, (f kv).1 = kv.1) :
    ∀ l : List (String × PoiSearchResult),
      (l.map f).find? (fun kv => decide (kv.1 = k))
        = (l.find? (fun kv => decide (kv.1 = k))).map f := by
  intro l
  induction l with
  | nil => simp
  | cons kv l ih =>
    by_cases hk : kv.1 = k
    · rw [List.map_cons, List.find?_cons_of_pos, List.find?_cons_of_pos] <;>
        simp [hf, hk]
    · rw [List.map_cons, List.find?_cons_of_neg, List.find?_cons_of_neg, ih] <;>
        simp [hf, hk]

lemma keySum_cons (k : String) (r : PoiSearchResult) (l : List PoiSearchResult) :
    ResultMerger.keySum k (r :: l)
      = (if ResultMerger.getResultKey r = k then r.relevance_score else 0)
        + ResultMerger.keySum k l := by
  unfold ResultMerger.keySum
  by_cases h : ResultMerger.getResultKey r = k <;> simp [h, List.filter_cons]

lemma keySum_eq_zero {k : String} {l : List PoiSearchResult}
    (h : l.any (fun r => decide (ResultMerger.getResultKey r = k)) = false) :
    ResultMerger.keySum k l = 0 := by
  unfold ResultMerger.keySum
  have : l.filter (fun r => decide (ResultMerger.getResultKey r = k)) = [] := by
    apply List.filter_eq_nil_iff.mpr
    intro r hr
    have := List.any_eq_false.mp h r hr
    simpa using this
  simp [this]

lemma lookupScore_map_update (u : Bool) (r : PoiSearchResult) (w : ℚ) (key k : String)
    (acc : List (String × PoiSearchResult)) :
    ResultMerger.lookupScore k
        (acc.map (fun kv => if kv.1 = key then (kv.1, ResultMerger.bumpEntry u r w kv.2) else kv))
      = if key = k then
          (ResultMerger.lookupScore k acc).map (fun s => s + r.relevance_score * w)
        else ResultMerger.lookupScore k acc := by
  unfold ResultMerger.lookupScore
  rw [find?_map_keyeq _ (fun kv => by split <;> rfl)]
  cases hfind : acc.find? (fun kv => decide (kv.1 = k)) with
  | none => by_cases hkk : key = k <;> simp [hkk]
  | some kv =>
    have hkvk : kv.1 = k := by simpa using (List.find?_some hfind)
    by_cases hkk : key = k
    · subst hkk
      simp [hkvk, bumpEntry_score]
    · have : ¬ (kv.1 = key) := by rw [hkvk]; exact fun h => hkk h.symm
      simp [this, hkk]

lemma mergeStep_lookupScore (w : ℚ) (u : Bool) (r : PoiSearchResult) (k : String)
    (acc : List (String × PoiSearchResult)) :
    ResultMerger.lookupScore k (ResultMerger.mergeStep w u acc r)
      = if ResultMerger.getResultKey r = k then
          some ((ResultMerger.lookupScore k acc).getD 0 + r.relevance_score * w)
        else ResultMerger.lookupScore k acc := by
  unfold ResultMerger.mergeStep
  by_cases hc : acc.any (fun kv => decide (kv.1 = ResultMerger.getResultKey r)) = true
  · rw [if_pos hc, lookupScore_map_update]
    by_cases hk : ResultMerger.getResultKey r = k
    · rw [if_pos hk, if_pos hk]
      cases hfind : ResultMerger.lookupScore k acc with
      | none =>
        exfalso
        rcases List.any_eq_true.mp hc with ⟨kv, hkv, hkvk⟩
        simp only [decide_eq_true_eq] at hkvk
        unfold ResultMerger.lookupScore at hfind
        rw [Option.map_eq_none'] at hfind
        have := List.find?_eq_none.mp hfind kv hkv
        simp only [decide_eq_true_eq] at this
        exact this (by rw [hkvk, hk])
      | some s => simp
    · rw [if_neg hk, if_neg hk]
  · rw [if_neg hc]
    unfold ResultMerger.lookupScore
    rw [List.find?_append]
    have hnone : acc.find? (fun kv => decide (kv.1 = ResultMerger.getResultKey r)) = none := by
      apply List.find?_eq_none.mpr
      intro kv hkv
      have := List.any_eq_false.mp (Bool.of_not_eq_true hc) kv hkv
      simpa using this
    by_cases hk : ResultMerger.getResultKey r = k
    · rw [← hk, hnone]
      simp [List.find?]
    · cases hfind : acc.find? (fun kv => decide (kv.1 = k)) with
      | none =>
        simp only [hfind, Option.none_or, Option.map_none]
        have : (decide (ResultMerger.getResultKey r = k)) = false := by simpa using hk
        simp [List.find?, this, if_neg hk]
      | some kv => simp [hfind, if_neg hk]

lemma foldl_mergeStep_lookupScore (w : ℚ) (u : Bool) (k : String) :
    ∀ (l : List PoiSearchResult) (acc : List (String × PoiSearchResult)),
      ResultMerger.lookupScore k (l.foldl (ResultMerger.mergeStep w u) acc)
        = if (ResultMerger.lookupScore k acc).isSome
              || l.any (fun r => decide (ResultMerger.getResultKey r = k)) then
            some ((ResultMerger.lookupScore k acc).getD 0 + ResultMerger.keySum k l * w)
          else none := by
  intro l
  induction l with
  | nil =>
    intro acc
    cases h : ResultMerger.lookupScore k acc <;>
      simp [h, ResultMerger.keySum]
  | cons r l ih =>
    intro acc
    rw [List.foldl_cons, ih, mergeStep_lookupScore, keySum_cons]
    by_cases hk : ResultMerger.getResultKey r = k
    · rw [if_pos hk]
      have hany : (r :: l).any (fun r => decide (ResultMerger.getResultKey r = k)) = true := by
        simp [hk]
      cases h : ResultMerger.lookupScore k acc with
      | none => simp [hk, h]; ring
      | some s => simp [hk, h]; ring
    · rw [if_neg hk]
      have hsum : (if ResultMerger.getResultKey r = k then r.relevance_score else 0) = 0 :=
        if_neg hk
      rw [hsum]
      have hany : (r :: l).any (fun q => decide (ResultMerger.getResultKey q = k))
          = l.any (fun q => decide (ResultMerger.getResultKey q = k)) := by
        simp [hk]
      rw [hany, zero_add]

lemma bumpEntry_eq (u : Bool) (r : PoiSearchResult) (w : ℚ) (e : PoiSearchResult) :
    ResultMerger.bumpEntry u r w e
      = { e with
          relevance_score := e.relevance_score + r.relevance_score * w,
          poi_id := if u && strTruthy r.poi_id then r.poi_id else e.poi_id } := by
  unfold ResultMerger.bumpEntry
  by_cases h : (u && strTruthy r.poi_id) = true <;> simp [h]

lemma mergeStep_insert (w : ℚ) (u : Bool) (acc : List (String × PoiSearchResult))
    (r : PoiSearchResult)
    (h : ResultMerger.lookupEntry (ResultMerger.getResultKey r) acc = none) :
    ResultMerger.mergeStep w u acc r
      = acc ++ [(ResultMerger.getResultKey r,
          { r with relevance_score := r.relevance_score * w })] := by
  have hfind : acc.find? (fun kv => decide (kv.1 = ResultMerger.getResultKey r)) = none := by
    unfold ResultMerger.lookupEntry at h
    exact Option.map_eq_none'.mp h
  have hany : acc.any (fun kv => decide (kv.1 = ResultMerger.getResultKey r)) = false := by
    rw [List.any_eq_false]
    intro kv hkv
    have := List.find?_eq_none.mp hfind kv hkv
    simpa using this
  simp only [ResultMerger.mergeStep]
  rw [hany]
  simp

lemma mergeStep_bump (w : ℚ) (u : Bool) (acc : List (String × PoiSearchResult))
    (r e : PoiSearchResult)
    (h : ResultMerger.lookupEntry (ResultMerger.getResultKey r) acc = some e) :
    ResultMerger.lookupEntry (ResultMerger.getResultKey r) (ResultMerger.mergeStep w u acc r)
      = some { e with
          relevance_score := e.relevance_score + r.relevance_score * w,
          poi_id := if u && strTruthy r.poi_id then r.poi_id else e.poi_id } := by
  obtain ⟨kv, hfind, hkv2⟩ :
      ∃ kv, acc.find? (fun kv => decide (kv.1 = ResultMerger.getResultKey r)) = some kv
        ∧ kv.2 = e := by
    unfold ResultMerger.lookupEntry at h
    cases hf : acc.find? (fun kv => decide (kv.1 = ResultMerger.getResultKey r)) with
    | none => rw [hf] at h; simp at h
    | some kv =>
      rw [hf] at h
      simp only [Option.map_some', Option.some.injEq] at h
      exact ⟨kv, rfl, h⟩
  have hkv1 : kv.1 = ResultMerger.getResultKey r := by simpa using List.find?_some hfind
  have hany : acc.any (fun kv => decide (kv.1 = ResultMerger.getResultKey r)) = true := by
    rw [List.any_eq_true]
    exact ⟨kv, List.mem_of_find?_eq_some hfind, by simpa using hkv1⟩
  simp only [ResultMerger.mergeStep]
  rw [hany]
  simp only [if_true]
  unfold ResultMerger.lookupEntry
  rw [find?_map_keyeq _ (fun kv => by split <;> rfl), hfind]
  simp only [Option.map_some']
  rw [if_pos hkv1, hkv2, bumpEntry_eq]

/-- C7: merge keys each candidate by truthy `poi_id`, else truthy `url`, else
title; a candidate with an unseen key is appended as a copy carrying
`score × source-weight`; a candidate whose key was already seen leaves the
stored entry with its score increased by the weighted score and with its
`poi_id` overwritten by the incoming candidate's `poi_id` exactly on the
embedding pass (`upd = true`, as wired by `mergeAssoc`) when that `poi_id` is
truthy — web-pass duplicates (`upd = false`) never touch it; consequently the
accumulated dict assigns each key exactly the weighted sum of all raw scores
carrying that key and contains no other keys, and the merged output is sorted
so that `M[i].score ≥ M[j].score` for all `i < j`. -/
theorem claim_C7_merge_keying_and_order (wW wE : ℚ) (web emb : List PoiSearchResult) :
    (ResultMerger.merge wW wE web emb).Pairwise
      (fun a b => b.relevance_score ≤ a.relevance_score)
    ∧ (∀ k : String,
        ResultMerger.lookupScore k (ResultMerger.mergeAssoc wW wE web emb)
          = if (web ++ emb).any (fun r => decide (ResultMerger.getResultKey r = k)) then
              some (ResultMerger.keySum k web * wW + ResultMerger.keySum k emb * wE)
            else none)
    ∧ ResultMerger.mergeAssoc wW wE web emb
        = emb.foldl (ResultMerger.mergeStep wE true)
            (web.foldl (ResultMerger.mergeStep wW false) [])
    ∧ (∀ (w : ℚ) (u : Bool) (acc : List (String × PoiSearchResult)) (r : PoiSearchResult),
        ResultMerger.lookupEntry (ResultMerger.getResultKey r) acc = none →
        ResultMerger.mergeStep w u acc r
          = acc ++ [(ResultMerger.getResultKey r,
              { r with relevance_score := r.relevance_score * w })])
    ∧ (∀ (w : ℚ) (u : Bool) (acc : List (String × PoiSearchResult)) (r e : PoiSearchResult),
        ResultMerger.lookupEntry (ResultMerger.getResultKey r) acc = some e →
        ResultMerger.lookupEntry (ResultMerger.getResultKey r)
            (ResultMerger.mergeStep w u acc r)
          = some { e with
              relevance_score := e.relevance_score + r.relevance_score * w,
              poi_id := if u && strTruthy r.poi_id then r.poi_id else e.poi_id }) := by
  refine ⟨?_, ?_, rfl, mergeStep_insert, mergeStep_bump⟩
  · exact pairwise_sortByKeyDesc _ _
  · intro k
    unfold ResultMerger.mergeAssoc
    rw [foldl_mergeStep_lookupScore, foldl_mergeStep_lookupScore]
    have hnil : ResultMerger.lookupScore k ([] : List (String × PoiSearchResult)) = none := rfl
    rw [hnil]
    simp only [Option.isSome_none, Bool.false_or, Option.getD_none, zero_add, List.any_append]
    by_cases hw : web.any (fun r => decide (ResultMerger.getResultKey r = k)) = true
    · simp only [hw, if_true, Option.isSome_some, Bool.true_or, if_true, Option.getD_some]
    · have hw0 : ResultMerger.keySum k web = 0 :=
        keySum_eq_zero (Bool.of_not_eq_true hw)
      simp only [Bool.of_not_eq_true hw, if_false, Option.isSome_none, Bool.false_or,
        Option.getD_none, zero_add, Bool.false_or]
      by_cases he : emb.any (fun r => decide (ResultMerger.getResultKey r = k)) = true
      · simp [he, hw0]
      · simp [Bool.of_not_eq_true he]

/-- Witness for C7 at concrete inputs: an unseen key inserts the weighted
copy, and a seen key bumps the stored entry and overwrites its `poi_id` on
the embedding pass. -/
theorem claim_C7_witness :
    ResultMerger.mergeStep (mkRat 3 5) false [] c6Sr
      = [] ++ [(ResultMerger.getResultKey c6Sr,
          { c6Sr with relevance_score := c6Sr.relevance_score * mkRat 3 5 })]
    ∧ ResultMerger.lookupEntry (ResultMerger.getResultKey c6Sr)
        (ResultMerger.mergeStep (mkRat 2 5) true
          [(ResultMerger.getResultKey c6Sr, defaultCand)] c6Sr)
      = some { defaultCand with
          relevance_score := defaultCand.relevance_score + c6Sr.relevance_score * mkRat 2 5,
          poi_id := if true && strTruthy c6Sr.poi_id then c6Sr.poi_id
                    else defaultCand.poi_id } :=
  ⟨(claim_C7_merge_keying_and_order (mkRat 3 5) (mkRat 2 5) [] []).2.2.2.1
      (mkRat 3 5) false [] c6Sr (by decide),
   (claim_C7_merge_keying_and_order (mkRat 3 5) (mkRat 2 5) [] []).2.2.2.2
      (mkRat 2 5) true [(ResultMerger.getResultKey c6Sr, defaultCand)] c6Sr defaultCand
      (by decide)⟩

lemma clamp01_bounds (q : ℚ) : 0 ≤ Reranker.clamp01 q ∧ Reranker.clamp01 q ≤ 1 := by
  unfold Reranker.clamp01
  exact ⟨le_min (le_max_right _ _) zero_le_one, min_le_right _ _⟩

lemma foldl_scores_length (count : ℕ) :
    ∀ (ms : List ScoreMatch) (init : List ℚ),
      (List.foldl
        (fun (scores : List ℚ) (mt : ScoreMatch) =>
          match mt.val with
          | none => scores
          | some v =>
            if 1 ≤ mt.idx ∧ mt.idx ≤ count then scores.set (mt.idx - 1) (Reranker.clamp01 v)
            else scores)
        init ms).length = init.length := by
  intro ms
  induction ms with
  | nil => intro init; rfl
  | cons mt ms ih =>
    intro init
    rw [List.foldl_cons, ih]
    cases hv : mt.val with
    | none => simp [hv]
    | some v => by_cases hidx : 1 ≤ mt.idx ∧ mt.idx ≤ count <;> simp [hv, hidx]

lemma parse_scores_length (ms : List ScoreMatch) (count : ℕ) :
    (Reranker.parse_scores ms count).length = count := by
  unfold Reranker.parse_scores
  rw [foldl_scores_length]
  exact List.length_replicate count 0

lemma foldl_scores_bounds (count : ℕ) :
    ∀ (ms : List ScoreMatch) (init : List ℚ),
      (∀ x ∈ init, 0 ≤ x ∧ x ≤ 1) →
      ∀ x ∈ List.foldl
          (fun (scores : List ℚ) (mt : ScoreMatch) =>
            match mt.val with
            | none => scores
            | some v =>
              if 1 ≤ mt.idx ∧ mt.idx ≤ count then scores.set (mt.idx - 1) (Reranker.clamp01 v)
              else scores)
          init ms, 0 ≤ x ∧ x ≤ 1 := by
  intro ms
  induction ms with
  | nil => intro init h; simpa using h
  | cons mt ms ih =>
    intro init h
    rw [List.foldl_cons]
    apply ih
    cases hv : mt.val with
    | none => simpa [hv] using h
    | some v =>
      by_cases hidx : 1 ≤ mt.idx ∧ mt.idx ≤ count
      · simp only [hv, hidx, if_true]
        intro x hx
        rcases List.mem_or_eq_of_mem_set hx with hx | rfl
        · exact h x hx
        · exact clamp01_bounds v
      · simpa [hv, hidx] using h

lemma parse_scores_bounds (ms : List ScoreMatch) (count : ℕ) :
    ∀ x ∈ Reranker.parse_scores ms count, 0 ≤ x ∧ x ≤ 1 := by
  unfold Reranker.parse_scores
  apply foldl_scores_bounds
  intro x hx
  rcases List.eq_of_mem_replicate hx with rfl
  exact ⟨le_refl 0, zero_le_one⟩

lemma foldl_scores_getElem? (count i : ℕ) :
    ∀ (ms : List ScoreMatch) (init : List ℚ),
      (∀ mt ∈ ms, mt.idx = i + 1 → mt.val = none) →
      init[i]? = some 0 →
      (List.foldl
        (fun (scores : List ℚ) (mt : ScoreMatch) =>
          match mt.val with
          | none => scores
          | some v =>
            if 1 ≤ mt.idx ∧ mt.idx ≤ count then scores.set (mt.idx - 1) (Reranker.clamp01 v)
            else scores)
        init ms)[i]? = some 0 := by
  intro ms
  induction ms with
  | nil => intro init hm h0; simpa using h0
  | cons mt ms ih =>
    intro init hm h0
    rw [List.foldl_cons]
    cases hv : mt.val with
    | none => exact ih init (fun q hq => hm q (List.mem_cons_of_mem mt hq)) h0
    | some v =>
      have hne : mt.idx ≠ i + 1 := by
        intro he
        have := hm mt (List.mem_cons_self mt ms) he
        rw [hv] at this
        exact Option.noConfusion this
      by_cases hidx : 1 ≤ mt.idx ∧ mt.idx ≤ count
      · have hstep :
            (match some v with
              | none => init
              | some v =>
                if 1 ≤ mt.idx ∧ mt.idx ≤ count then init.set (mt.idx - 1) (Reranker.clamp01 v)
                else init)
            = init.set (mt.idx - 1) (Reranker.clamp01 v) := by simp [hidx]
        rw [hstep]
        refine ih _ (fun q hq => hm q (List.mem_cons_of_mem mt hq)) ?_
        have hii : mt.idx - 1 ≠ i := by omega
        rw [List.getElem?_set_ne hii]
        exact h0
      · have hstep :
            (match some v with
              | none => init
              | some v =>
                if 1 ≤ mt.idx ∧ mt.idx ≤ count then init.set (mt.idx - 1) (Reranker.clamp01 v)
                else init)
            = init := by simp [hidx]
        rw [hstep]
        exact ih init (fun q hq => hm q (List.mem_cons_of_mem mt hq)) h0

lemma parse_scores_getElem_zero (ms : List ScoreMatch) (count i : ℕ) (hi : i < count)
    (hm : ∀ mt ∈ ms, mt.idx = i + 1 → mt.val = none)
    (hsc : i < (Reranker.parse_scores ms count).length) :
    (Reranker.parse_scores ms count).get ⟨i, hsc⟩ = 0 := by
  have h? : (Reranker.parse_scores ms count)[i]? = some 0 := by
    unfold Reranker.parse_scores
    refine foldl_scores_getElem? count i ms (List.replicate count 0) hm ?_
    rw [List.getElem?_replicate]
    simp [hi]
  rw [List.get_eq_getElem]
  have := List.getElem?_eq_getElem hsc
  rw [this] at h?
  exact Option.some.inj h?

lemma rerank_foldl (min : ℚ) :
    ∀ (l : List (PoiSearchResult × ℚ)) (acc : List PoiSearchResult × List (String × ℚ)),
      List.foldl
        (fun (acc : List PoiSearchResult × List (String × ℚ)) pr =>
          if pr.2 < min then (acc.1, acc.2 ++ [(pr.1.title, pr.2)])
          else (acc.1 ++ [{ pr.1 with relevance_score := pr.2 }], acc.2))
        acc l
      = (acc.1 ++ (l.filter (fun p => !decide (p.2 < min))).map
            (fun p => { p.1 with relevance_score := p.2 }),
         acc.2 ++ (l.filter (fun p => decide (p.2 < min))).map (fun p => (p.1.title, p.2))) := by
  intro l
  induction l with
  | nil => intro acc; simp
  | cons p l ih =>
    intro acc
    simp only [List.foldl_cons]
    rw [ih]
    by_cases hp : p.2 < min <;>
      simp [hp, List.filter_cons, List.append_assoc]

lemma rerank_some_eq (results : List PoiSearchResult) (ms : List ScoreMatch) (min : ℚ)
    (h : results ≠ []) :
    Reranker.rerank results (some ms) min
      = (((sortByKeyDesc (fun p => p.2)
            (results.zip (Reranker.parse_scores ms results.length))).filter
              (fun p => !decide (p.2 < min))).map
            (fun p => { p.1 with relevance_score := p.2 }),
         ((sortByKeyDesc (fun p => p.2)
            (results.zip (Reranker.parse_scores ms results.length))).filter
              (fun p => decide (p.2 < min))).map (fun p => (p.1.title, p.2))) := by
  unfold Reranker.rerank
  rw [if_neg (by simpa [List.isEmpty_iff] using h)]
  show (List.foldl _ ([], []) _) = _
  rw [rerank_foldl]
  simp

/-- C8 counterexample: when the reranker LLM call fails, the source returns the
input batch unchanged, so with `rerank_min_score = 0.6` a candidate with score
0.5 is retained below the threshold — the claim's bound does not hold for
every batch reranking. -/
theorem claim_C8_counterexample :
    ¬ ∀ r ∈ (Reranker.rerank [{ defaultCand with relevance_score := mkRat 1 2 }] none
          (mkRat 3 5)).1,
        mkRat 3 5 ≤ r.relevance_score := by
  decide

/-- C8 amended: for every batch whose rerank LLM call succeeds, every retained
candidate has score in `[rerank_min_score, 1]` (and at least 0), every pair
scoring below the threshold is recorded in the dropped-out list, and the
aggregated reranked web list produced by `process_and_rerank_web` is sorted
descending by score; on a failed LLM call the batch is returned unchanged, so
the bounds need not hold there. -/
theorem claim_C8_amended :
    (∀ (results : List PoiSearchResult) (ms : List ScoreMatch) (min_score : ℚ),
        ∀ r ∈ (Reranker.rerank results (some ms) min_score).1,
          min_score ≤ r.relevance_score ∧ 0 ≤ r.relevance_score ∧ r.relevance_score ≤ 1)
    ∧ (∀ (results : List PoiSearchResult) (ms : List ScoreMatch) (min_score : ℚ)
        (p : PoiSearchResult × ℚ),
        p ∈ sortByKeyDesc (fun q => q.2)
            (results.zip (Reranker.parse_scores ms results.length)) →
        p.2 < min_score →
        (p.1.title, p.2) ∈ (Reranker.rerank results (some ms) min_score).2)
    ∧ (∀ (P : Providers) (cfg : Config) (s : PoiAgentState),
        (PoiGraph._process_and_rerank_web P cfg s).1.reranked_web_results.Pairwise
          (fun a b => b.relevance_score ≤ a.relevance_score)) := by
  refine ⟨?_, ?_, ?_⟩
  · intro results ms min_score r hr
    cases results with
    | nil => simp [Reranker.rerank] at hr
    | cons q qs =>
      rw [rerank_some_eq (q :: qs) ms min_score (by simp)] at hr
      rcases List.mem_map.mp hr with ⟨p, hp, rfl⟩
      obtain ⟨p1, p2⟩ := p
      rcases List.mem_filter.mp hp with ⟨hps, hplt⟩
      have hle : min_score ≤ p2 := by
        rcases lt_or_le p2 min_score with hlt | hge
        · exfalso; simp [hlt] at hplt
        · exact hge
      have hzip : (p1, p2) ∈ (q :: qs).zip (Reranker.parse_scores ms (q :: qs).length) :=
        mem_sortByKeyDesc.mp hps
      have hbounds := parse_scores_bounds ms (q :: qs).length p2 (List.of_mem_zip hzip).2
      exact ⟨hle, hbounds.1, hbounds.2⟩
  · intro results ms min_score p hp hplt
    cases results with
    | nil => simp [sortByKeyDesc] at hp
    | cons q qs =>
      rw [rerank_some_eq (q :: qs) ms min_score (by simp)]
      exact List.mem_map.mpr ⟨p, List.mem_filter.mpr ⟨hp, by simpa using hplt⟩, rfl⟩
  · intro P cfg s
    unfold PoiGraph._process_and_rerank_web
    by_cases h : s.web_results.isEmpty <;> simp [h, pairwise_sortByScoreDesc]

/-- Witness for the C8 amended theorem at a concrete successful batch. -/
theorem claim_C8_amended_witness :
    mkRat 1 2 ≤ ({ defaultCand with relevance_score := 1 } : PoiSearchResult).relevance_score
    ∧ (0:ℚ) ≤ ({ defaultCand with relevance_score := 1 } : PoiSearchResult).relevance_score
    ∧ ({ defaultCand with relevance_score := 1 } : PoiSearchResult).relevance_score ≤ 1 :=
  claim_C8_amended.1 [defaultCand] [⟨1, some 1⟩] (mkRat 1 2)
    { defaultCand with relevance_score := 1 } (by decide)

/-- C9: a candidate whose 1-based id never appears among the parsed score
entries of the LLM response keeps the default score 0.0; with a positive
`min_score` its `(title, 0.0)` pair is appended to the dropped-out list, the
returned list is exactly the copies of the sorted pairs at or above the
threshold, and every returned candidate scores at least `min_score` — so the
unscored candidate is never returned. -/
theorem claim_C9_unscored_candidates_dropped
    (results : List PoiSearchResult) (ms : List ScoreMatch) (min_score : ℚ) (i : ℕ)
    (hi : i < results.length)
    (hm : ∀ mt ∈ ms, mt.idx = i + 1 → mt.val = none)
    (hmin : 0 < min_score) :
    (∀ hsc : i < (Reranker.parse_scores ms results.length).length,
        (Reranker.parse_scores ms results.length).get ⟨i, hsc⟩ = 0)
    ∧ ((results.get ⟨i, hi⟩).title, (0 : ℚ))
        ∈ (Reranker.rerank results (some ms) min_score).2
    ∧ (Reranker.rerank results (some ms) min_score).1
        = ((sortByKeyDesc (fun p => p.2)
            (results.zip (Reranker.parse_scores ms results.length))).filter
              (fun p => !decide (p.2 < min_score))).map
            (fun p => { p.1 with relevance_score := p.2 })
    ∧ (∀ r ∈ (Reranker.rerank results (some ms) min_score).1,
        min_score ≤ r.relevance_score) := by
  have hne : results ≠ [] := by
    intro he
    rw [he] at hi
    exact Nat.not_lt_zero i hi
  have hlen : (Reranker.parse_scores ms results.length).length = results.length :=
    parse_scores_length ms results.length
  have hzlen : i < (results.zip (Reranker.parse_scores ms results.length)).length := by
    rw [List.length_zip, hlen]
    omega
  have hget0 : ∀ hsc : i < (Reranker.parse_scores ms results.length).length,
      (Reranker.parse_scores ms results.length).get ⟨i, hsc⟩ = 0 := fun hsc =>
    parse_scores_getElem_zero ms results.length i hi hm hsc
  have hpair : (results.get ⟨i, hi⟩, (0:ℚ))
      ∈ results.zip (Reranker.parse_scores ms results.length) := by
    have hz := @List.getElem_zip _ _ results (Reranker.parse_scores ms results.length) i hzlen
    have h0 := hget0 (by omega)
    rw [List.get_eq_getElem] at h0 ⊢
    rw [← h0]
    rw [← hz]
    exact List.getElem_mem hzlen
  refine ⟨hget0, ?_, rerank_some_eq results ms min_score hne ▸ rfl, ?_⟩
  · rw [rerank_some_eq results ms min_score hne]
    refine List.mem_map.mpr ⟨(results.get ⟨i, hi⟩, (0:ℚ)), ?_, rfl⟩
    refine List.mem_filter.mpr ⟨mem_sortByKeyDesc.mpr hpair, by simpa using hmin⟩
  · intro r hr
    rw [rerank_some_eq results ms min_score hne] at hr
    rcases List.mem_map.mp hr with ⟨p, hp, rfl⟩
    rcases List.mem_filter.mp hp with ⟨hps, hplt⟩
    rcases lt_or_le p.2 min_score with hlt | hge
    · exfalso; simp [hlt] at hplt
    · exact hge

/-- Witness for C9 at a concrete input (one candidate, no score entries). -/
theorem claim_C9_witness :
    (∀ hsc : 0 < (Reranker.parse_scores [] ([defaultCand] : List PoiSearchResult).length).length,
        (Reranker.parse_scores [] ([defaultCand] : List PoiSearchResult).length).get ⟨0, hsc⟩ = 0)
    ∧ ((([defaultCand] : List PoiSearchResult).get ⟨0, by decide⟩).title, (0 : ℚ))
        ∈ (Reranker.rerank [defaultCand] (some []) (mkRat 1 2)).2
    ∧ (Reranker.rerank [defaultCand] (some []) (mkRat 1 2)).1
        = ((sortByKeyDesc (fun p => p.2)
            (([defaultCand] : List PoiSearchResult).zip
              (Reranker.parse_scores [] ([defaultCand] : List PoiSearchResult).length))).filter
              (fun p => !decide (p.2 < mkRat 1 2))).map
            (fun p => { p.1 with relevance_score := p.2 })
    ∧ (∀ r ∈ (Reranker.rerank [defaultCand] (some []) (mkRat 1 2)).1,
        mkRat 1 2 ≤ r.relevance_score) :=
  claim_C9_unscored_candidates_dropped [defaultCand] [] (mkRat 1 2) 0 (by decide)
    (by intro mt hmt; simp at hmt) (by decide)

lemma extract_keywords_calls (P : Providers) (s : PoiAgentState) :
    ∀ c ∈ (PoiGraph._extract_keywords P s).2, c = Call.llm := by
  intro c hc
  unfold PoiGraph._extract_keywords at hc
  revert hc
  split <;> simp

lemma vector_db_calls (P : Providers) (cfg : Config) (s : PoiAgentState) :
    (PoiGraph._vector_db_first_search P cfg s).2 = [Call.encoder] := rfl

lemma rerank_embedding_calls (P : Providers) (cfg : Config) (s : PoiAgentState) :
    ∀ c ∈ (PoiGraph._rerank_embedding P cfg s).2, c = Call.llm := by
  intro c hc
  simp only [PoiGraph._rerank_embedding] at hc
  rcases List.mem_flatMap.mp hc with ⟨sl, _, hc2⟩
  revert hc2
  split <;> simp

lemma merge_results_calls (cfg : Config) (s : PoiAgentState) :
    (PoiGraph._merge_results cfg s).2 = [] := rfl

lemma pipelineFirstStages_calls (P : Providers) (cfg : Config) (s0 : PoiAgentState) :
    (PoiGraph.pipelineFirstStages P cfg s0).2
      = (PoiGraph._extract_keywords P s0).2
        ++ (PoiGraph._vector_db_first_search P cfg (PoiGraph._extract_keywords P s0).1).2
        ++ (PoiGraph._rerank_embedding P cfg
            (PoiGraph._vector_db_first_search P cfg (PoiGraph._extract_keywords P s0).1).1).2 :=
  rfl

lemma webProvider_not_in_first_stages (P : Providers) (cfg : Config) (s0 : PoiAgentState) :
    Call.webProvider ∉ (PoiGraph.pipelineFirstStages P cfg s0).2 := by
  rw [pipelineFirstStages_calls]
  intro hmem
  rcases List.mem_append.mp hmem with hmem | hmem
  · rcases List.mem_append.mp hmem with hmem | hmem
    · exact absurd (extract_keywords_calls P s0 _ hmem) (by decide)
    · rw [vector_db_calls] at hmem
      simp at hmem
  · exact absurd (rerank_embedding_calls P cfg _ _ hmem) (by decide)

/-- C2: when the reranked embedding results meet the state's target count, the
conditional edge goes straight from `rerank_embedding` to `merge_results`: the
executed node trace is exactly the short path, the web stages never run, and
the web-search provider is never called in that run. -/
theorem claim_C2_short_circuit (P : Providers) (cfg : Config) (s0 : PoiAgentState)
    (h : ((PoiGraph.pipelineFirstStages P cfg s0).1.reranked_embedding_results.length : ℤ)
          ≥ (PoiGraph.pipelineFirstStages P cfg s0).1.final_poi_count) :
    (PoiGraph.pipelineRun P cfg s0).2.1
        = [NodeTag.extract_keywords, NodeTag.vector_db_first_search,
           NodeTag.rerank_embedding, NodeTag.merge_results]
    ∧ NodeTag.web_search ∉ (PoiGraph.pipelineRun P cfg s0).2.1
    ∧ NodeTag.process_and_rerank_web ∉ (PoiGraph.pipelineRun P cfg s0).2.1
    ∧ Call.webProvider ∉ (PoiGraph.pipelineRun P cfg s0).2.2 := by
  have hcheck : PoiGraph._check_poi_sufficiency (PoiGraph.pipelineFirstStages P cfg s0).1 = true := by
    unfold PoiGraph._check_poi_sufficiency
    exact decide_eq_true h
  have heq : PoiGraph.pipelineRun P cfg s0
      = ((PoiGraph._merge_results cfg (PoiGraph.pipelineFirstStages P cfg s0).1).1,
         [NodeTag.extract_keywords, NodeTag.vector_db_first_search,
          NodeTag.rerank_embedding, NodeTag.merge_results],
         (PoiGraph.pipelineFirstStages P cfg s0).2
           ++ (PoiGraph._merge_results cfg (PoiGraph.pipelineFirstStages P cfg s0).1).2) := by
    unfold PoiGraph.pipelineRun
    simp [hcheck]
  rw [heq]
  refine ⟨rfl, ?_, ?_, ?_⟩
  · show NodeTag.web_search ∉ [NodeTag.extract_keywords, NodeTag.vector_db_first_search,
      NodeTag.rerank_embedding, NodeTag.merge_results]
    decide
  · show NodeTag.process_and_rerank_web ∉ [NodeTag.extract_keywords,
      NodeTag.vector_db_first_search, NodeTag.rerank_embedding, NodeTag.merge_results]
    decide
  · show Call.webProvider ∉ (PoiGraph.pipelineFirstStages P cfg s0).2
      ++ (PoiGraph._merge_results cfg (PoiGraph.pipelineFirstStages P cfg s0).1).2
    rw [merge_results_calls]
    intro hmem
    rw [List.append_nil] at hmem
    exact webProvider_not_in_first_stages P cfg s0 hmem

/-- Witness for C2: with no stored POIs and a zero fallback target, the
embedding branch is already sufficient. -/
theorem claim_C2_witness :
    (PoiGraph.pipelineRun emptyProviders defaultConfig emptyState).2.1
        = [NodeTag.extract_keywords, NodeTag.vector_db_first_search,
           NodeTag.rerank_embedding, NodeTag.merge_results]
    ∧ NodeTag.web_search ∉ (PoiGraph.pipelineRun emptyProviders defaultConfig emptyState).2.1
    ∧ NodeTag.process_and_rerank_web
        ∉ (PoiGraph.pipelineRun emptyProviders defaultConfig emptyState).2.1
    ∧ Call.webProvider ∉ (PoiGraph.pipelineRun emptyProviders defaultConfig emptyState).2.2 :=
  claim_C2_short_circuit emptyProviders defaultConfig emptyState (by decide)

lemma firstStages_calls_shape (P : Providers) (cfg : Config) (s0 : PoiAgentState) :
    ∀ c ∈ (PoiGraph.pipelineFirstStages P cfg s0).2, c = Call.llm ∨ c = Call.encoder := by
  rw [pipelineFirstStages_calls]
  intro c hc
  rcases List.mem_append.mp hc with hc | hc
  · rcases List.mem_append.mp hc with hc | hc
    · exact Or.inl (extract_keywords_calls P s0 c hc)
    · rw [vector_db_calls] at hc
      simp at hc
      exact Or.inr hc
  · exact Or.inl (rerank_embedding_calls P cfg _ c hc)

lemma pipelineRun_empty_persona (P : Providers) (cfg : Config) (s0 : PoiAgentState)
    (hp : s0.persona_summary = "") (hwr : s0.reranked_web_results = []) :
    (Call.webProvider ∉ (PoiGraph.pipelineRun P cfg s0).2.2
      ∧ Call.contentReader ∉ (PoiGraph.pipelineRun P cfg s0).2.2
      ∧ Call.placeResolver ∉ (PoiGraph.pipelineRun P cfg s0).2.2)
    ∧ (P.vectorQuery s0.persona_summary cfg.embedding_k s0.travel_destination = [] →
        (PoiGraph.pipelineRun P cfg s0).1.final_poi_data = []
        ∧ Call.llm ∉ (PoiGraph.pipelineRun P cfg s0).2.2) := by
  have he : PoiGraph._extract_keywords P s0 = ({ s0 with keywords := [] }, []) := by
    unfold PoiGraph._extract_keywords
    rw [if_pos hp]
  have hkpre : (PoiGraph.pipelineFirstStages P cfg s0).1.keywords = [] := by
    have hstep : (PoiGraph.pipelineFirstStages P cfg s0).1.keywords
        = (PoiGraph._extract_keywords P s0).1.keywords := rfl
    rw [hstep, he]
  have hw : PoiGraph._web_search P cfg (PoiGraph.pipelineFirstStages P cfg s0).1
      = ({ (PoiGraph.pipelineFirstStages P cfg s0).1 with web_results := [] }, []) := by
    unfold PoiGraph._web_search
    rw [if_pos (by simp [hkpre])]
  have hpw2 : (PoiGraph._process_and_rerank_web P cfg
      { (PoiGraph.pipelineFirstStages P cfg s0).1 with web_results := [] }).2 = [] := by
    unfold PoiGraph._process_and_rerank_web
    rw [if_pos (by simp)]
  have hcalls : (PoiGraph.pipelineRun P cfg s0).2.2 = (PoiGraph.pipelineFirstStages P cfg s0).2 := by
    unfold PoiGraph.pipelineRun
    by_cases hcheck :
        PoiGraph._check_poi_sufficiency (PoiGraph.pipelineFirstStages P cfg s0).1 = true
    · simp [hcheck, merge_results_calls]
    · simp only [hcheck]
      simp only [Bool.false_eq_true, if_false]
      rw [hw]
      simp only []
      rw [hpw2]
      simp [merge_results_calls]
  refine ⟨⟨?_, ?_, ?_⟩, ?_⟩
  · rw [hcalls]
    intro hmem
    rcases firstStages_calls_shape P cfg s0 _ hmem with h | h <;> exact absurd h (by decide)
  · rw [hcalls]
    intro hmem
    rcases firstStages_calls_shape P cfg s0 _ hmem with h | h <;> exact absurd h (by decide)
  · rw [hcalls]
    intro hmem
    rcases firstStages_calls_shape P cfg s0 _ hmem with h | h <;> exact absurd h (by decide)
  · intro hv
    have hv1 : (PoiGraph._vector_db_first_search P cfg
        (PoiGraph._extract_keywords P s0).1).1.embedding_results = [] := by
      simp only [PoiGraph._vector_db_first_search]
      have hq : P.vectorQuery (PoiGraph._extract_keywords P s0).1.persona_summary
          cfg.embedding_k (PoiGraph._extract_keywords P s0).1.travel_destination = [] := by
        rw [he]
        exact hv
      rw [hq]
      rfl
    have hr1 : (PoiGraph.pipelineFirstStages P cfg s0).1.reranked_embedding_results = [] := by
      have hstep : (PoiGraph.pipelineFirstStages P cfg s0).1
          = (PoiGraph._rerank_embedding P cfg
              (PoiGraph._vector_db_first_search P cfg
                (PoiGraph._extract_keywords P s0).1).1).1 := rfl
      rw [hstep]
      simp only [PoiGraph._rerank_embedding]
      rw [hv1]
      rfl
    have hr2 : (PoiGraph._rerank_embedding P cfg
        (PoiGraph._vector_db_first_search P cfg
          (PoiGraph._extract_keywords P s0).1).1).2 = [] := by
      simp only [PoiGraph._rerank_embedding]
      rw [hv1]
      rfl
    have hwrpre : (PoiGraph.pipelineFirstStages P cfg s0).1.reranked_web_results = [] := by
      have hstep : (PoiGraph.pipelineFirstStages P cfg s0).1.reranked_web_results
          = (PoiGraph._extract_keywords P s0).1.reranked_web_results := rfl
      rw [hstep, he]
      exact hwr
    have hmerge : ∀ s : PoiAgentState, s.reranked_web_results = [] →
        s.reranked_embedding_results = [] →
        (PoiGraph._merge_results cfg s).1.final_poi_data = [] := by
      intro s h1 h2
      simp only [PoiGraph._merge_results]
      rw [h1, h2]
      rfl
    have hprecalls : (PoiGraph.pipelineFirstStages P cfg s0).2 = [Call.encoder] := by
      rw [pipelineFirstStages_calls, hr2, vector_db_calls, he]
      rfl
    constructor
    · unfold PoiGraph.pipelineRun
      by_cases hcheck :
          PoiGraph._check_poi_sufficiency (PoiGraph.pipelineFirstStages P cfg s0).1 = true
      · simp only [hcheck, if_true]
        exact hmerge _ hwrpre hr1
      · simp only [hcheck, Bool.false_eq_true, if_false]
        rw [hw]
        simp only []
        refine hmerge _ ?_ ?_
        · have : (PoiGraph._process_and_rerank_web P cfg
              { (PoiGraph.pipelineFirstStages P cfg s0).1 with
                  web_results := [] }).1.reranked_web_results = [] := by
            unfold PoiGraph._process_and_rerank_web
            rw [if_pos (by simp)]
          exact this
        · have : (PoiGraph._process_and_rerank_web P cfg
              { (PoiGraph.pipelineFirstStages P cfg s0).1 with
                  web_results := [] }).1.reranked_embedding_results
              = (PoiGraph.pipelineFirstStages P cfg s0).1.reranked_embedding_results := by
            unfold PoiGraph._process_and_rerank_web
            rw [if_pos (by simp)]
          rw [this]
          exact hr1
    · rw [hcalls, hprecalls]
      decide

/-- C6 counterexample: `run` has no empty-persona guard. With an empty persona
but a non-empty vector store (one stored Seoul POI relevant to the empty
query), the embedding branch still runs, the reranker LLM is invoked, and the
run returns that stored POI — contradicting both the claimed empty result and
the claim that no external provider is invoked. -/
theorem claim_C6_counterexample :
    Call.llm ∈ (PoiGraph.run c6Prov c6Cfg "" "Seoul"
        PoiGraph.DateInput.missing PoiGraph.DateInput.missing).calls
    ∧ (PoiGraph.run c6Prov c6Cfg "" "Seoul"
        PoiGraph.DateInput.missing PoiGraph.DateInput.missing).final_poi_data ≠ [] := by
  constructor
  · decide
  · decide

/-- C6 amended: with an empty persona summary no keywords are extracted, so the
web-search provider, content reader and place resolver are never invoked; when
additionally the vector store returns nothing for the empty query, the run
returns an empty POI list and the LLM is never invoked either. (When the store
does return candidates, the reranker LLM still runs and its results are
returned.) -/
theorem claim_C6_amended (P : Providers) (cfg : Config) (dest : String)
    (sd ed : PoiGraph.DateInput) :
    (Call.webProvider ∉ (PoiGraph.run P cfg "" dest sd ed).calls
      ∧ Call.contentReader ∉ (PoiGraph.run P cfg "" dest sd ed).calls
      ∧ Call.placeResolver ∉ (PoiGraph.run P cfg "" dest sd ed).calls)
    ∧ (P.vectorQuery "" cfg.embedding_k dest = [] →
        (PoiGraph.run P cfg "" dest sd ed).final_poi_data = []
        ∧ Call.llm ∉ (PoiGraph.run P cfg "" dest sd ed).calls) :=
  pipelineRun_empty_persona P cfg _ rfl rfl

/-- Witness for the C6 amended theorem on a concrete empty run. -/
theorem claim_C6_amended_witness :
    (PoiGraph.run emptyProviders defaultConfig "" "Seoul"
        PoiGraph.DateInput.missing PoiGraph.DateInput.missing).final_poi_data = []
    ∧ Call.llm ∉ (PoiGraph.run emptyProviders defaultConfig "" "Seoul"
        PoiGraph.DateInput.missing PoiGraph.DateInput.missing).calls :=
  (claim_C6_amended emptyProviders defaultConfig "Seoul"
    PoiGraph.DateInput.missing PoiGraph.DateInput.missing).2 rfl
